import Mathlib

/-!
Verification development for the JobHacker-AI pipeline: a shallow embedding of
the ingestion, normalization, dedup, scoring and orchestration code, together
with theorems settling the specification claims.

JavaScript features that the code leans on are modelled explicitly: exceptions
as Except, the JSON.parse builtin as an executable recursive-descent parser
producing exact rationals, the Number and String coercions, Date values as
Option Int (epoch milliseconds, none for an Invalid Date), and ambient effects
(Date.now, the implementation-defined date-string parser) as explicit
parameters threaded through the embedded functions.
-/

/-- Error value thrown by JavaScript code; only the message is observable to
the catch blocks modelled here. -/
structure JsError where
  message : String
deriving DecidableEq, Repr

/-- Character-list test backing the model of String.startsWith: does the first
list start with the second? -/
def startsWithChars : List Char → List Char → Bool
  | _, [] => true
  | [], _ :: _ => false
  | a :: as, b :: bs => a == b && startsWithChars as bs

/-- Character-list substring test backing the model of String.includes. -/
def hasSubChars : List Char → List Char → Bool
  | [], pat => startsWithChars [] pat
  | hay@(_ :: t), pat => startsWithChars hay pat || hasSubChars t pat

/-- Model of the JavaScript method String.prototype.includes. -/
def jsIncludes (s pat : String) : Bool := hasSubChars s.data pat.data

/-- Whitespace recognised by the JavaScript trim and Number coercions: ASCII
whitespace plus the common Unicode space characters (a simplification of the
full ECMAScript WhiteSpace and LineTerminator classes). -/
def jsWs (c : Char) : Bool :=
  c == ' ' || c == '\t' || c == '\n' || c == '\r' || c == Char.ofNat 11 ||
    c == Char.ofNat 12 || c == Char.ofNat 160 || c == Char.ofNat 65279

/-- Model of the JavaScript method String.prototype.trim. -/
def jsTrim (s : String) : String :=
  String.mk (((s.data.dropWhile jsWs).reverse.dropWhile jsWs).reverse)

mutual

/-- Values produced by the JSON.parse builtin. The element and member lists
are their own inductives so that every recursion over a value is structural
(and therefore evaluates inside the kernel). -/
inductive Json where
  | null : Json
  | bool (b : Bool) : Json
  | num (q : ℚ) : Json
  | str (s : String) : Json
  | arr (elems : JsonList) : Json
  | obj (fields : JsonFields) : Json

/-- Elements of a JSON array. -/
inductive JsonList where
  | nil : JsonList
  | cons (hd : Json) (tl : JsonList) : JsonList

/-- Members of a JSON object, in textual order. -/
inductive JsonFields where
  | nil : JsonFields
  | cons (key : String) (val : Json) (tl : JsonFields) : JsonFields

end

/-- Last binding of a key among object members — later duplicate keys win in
JavaScript. -/
def JsonFields.lastBinding : JsonFields → String → Option Json
  | .nil, _ => none
  | .cons key v tl, k =>
    match JsonFields.lastBinding tl k with
    | some r => some r
    | none => if key = k then some v else none

/-- Property access on a JSON.parse result, as in parsed.score: the last
binding of the key when the value is an object, and undefined (none)
otherwise. -/
def Json.getField : Json → String → Option Json
  | .obj fields, k => fields.lastBinding k
  | _, _ => none

/-- Value of a hexadecimal digit, none for other characters. -/
def hexVal (c : Char) : Option Nat :=
  if '0' ≤ c ∧ c ≤ '9' then some (c.toNat - 48)
  else if 'a' ≤ c ∧ c ≤ 'f' then some (c.toNat - 87)
  else if 'A' ≤ c ∧ c ≤ 'F' then some (c.toNat - 55)
  else none

/-- Body of a JSON string literal after the opening quote: the decoded
characters plus the input remaining after the closing quote. Escapes are
decoded as JSON.parse does; a backslash-u escape naming an invalid scalar
value degrades through Char.ofNat (a modelling simplification for lone
surrogates). -/
def pStrChars : List Char → Option (List Char × List Char)
  | [] => none
  | '"' :: rest => some ([], rest)
  | '\\' :: e :: rest =>
    match e with
    | '"' => (pStrChars rest).map (fun p => ('"' :: p.1, p.2))
    | '\\' => (pStrChars rest).map (fun p => ('\\' :: p.1, p.2))
    | '/' => (pStrChars rest).map (fun p => ('/' :: p.1, p.2))
    | 'b' => (pStrChars rest).map (fun p => (Char.ofNat 8 :: p.1, p.2))
    | 'f' => (pStrChars rest).map (fun p => (Char.ofNat 12 :: p.1, p.2))
    | 'n' => (pStrChars rest).map (fun p => ('\n' :: p.1, p.2))
    | 'r' => (pStrChars rest).map (fun p => ('\r' :: p.1, p.2))
    | 't' => (pStrChars rest).map (fun p => ('\t' :: p.1, p.2))
    | 'u' =>
      match rest with
      | h1 :: h2 :: h3 :: h4 :: rest2 =>
        match hexVal h1, hexVal h2, hexVal h3, hexVal h4 with
        | some a, some b, some c, some d =>
          (pStrChars rest2).map
            (fun p => (Char.ofNat (((a * 16 + b) * 16 + c) * 16 + d) :: p.1, p.2))
        | _, _, _, _ => none
      | _ => none
    | _ => none
  | c :: rest => if c.toNat < 32 then none else (pStrChars rest).map (fun p => (c :: p.1, p.2))

/-- Maximal run of decimal digits and the rest of the input. -/
def takeDigits (cs : List Char) : List Char × List Char :=
  (cs.takeWhile Char.isDigit, cs.dropWhile Char.isDigit)

/-- Numeric value of a run of decimal digits. -/
def digitsVal (ds : List Char) : Nat :=
  ds.foldl (fun acc c => acc * 10 + (c.toNat - 48)) 0

/-- Exact rational value of a signed decimal literal: integer digits, fraction
digits, and a signed power-of-ten exponent. Built from integer arithmetic and
one mkRat so that it evaluates inside the kernel. -/
def buildNum (neg : Bool) (ip fds : List Char) (e : Int) : ℚ :=
  let m : Nat := digitsVal ip * 10 ^ fds.length + digitsVal fds
  let sm : Int := if neg then -(m : Int) else (m : Int)
  if 0 ≤ e then mkRat (sm * (10 : Int) ^ e.toNat) (10 ^ fds.length)
  else mkRat sm (10 ^ fds.length * 10 ^ (-e).toNat)

/-- Exponent tail of a decimal literal, after the letter e: its signed value
and the remaining input. -/
def pExpVal (t : List Char) : Option (Int × List Char) :=
  let (esign, t1) : Int × List Char :=
    match t with
    | '+' :: r => (1, r)
    | '-' :: r => (-1, r)
    | _ => (1, t)
  let (eds, r) := takeDigits t1
  if eds = [] then none
  else some (esign * (digitsVal eds : Int), r)

/-- JSON number grammar: optional minus, integer part without leading zeros,
optional fraction, optional exponent. JSON numbers are modelled as exact
rationals, a simplification of IEEE-754 doubles that is faithful for the
literals this pipeline compares against the 1..10 range. -/
def pNumber (cs : List Char) : Option (ℚ × List Char) :=
  let (neg, cs1) : Bool × List Char :=
    match cs with
    | '-' :: t => (true, t)
    | _ => (false, cs)
  let (ip, r1) := takeDigits cs1
  if ip = [] then none
  else if 1 < ip.length ∧ ip.head? = some '0' then none
  else
    let (fdsOpt, r2) : Option (List Char) × List Char :=
      match r1 with
      | '.' :: t =>
        let (fds, r) := takeDigits t
        (some fds, r)
      | _ => (none, r1)
    match fdsOpt with
    | some [] => none
    | _ =>
      let fds := fdsOpt.getD []
      match r2 with
      | 'e' :: t => (pExpVal t).map (fun p => (buildNum neg ip fds p.1, p.2))
      | 'E' :: t => (pExpVal t).map (fun p => (buildNum neg ip fds p.1, p.2))
      | _ => some (buildNum neg ip fds 0, r2)

/-- Insignificant whitespace of the JSON grammar. -/
def jsonWsChar (c : Char) : Bool := c == ' ' || c == '\t' || c == '\n' || c == '\r'

/-- Drop insignificant JSON whitespace. -/
def skipJsonWs (cs : List Char) : List Char := cs.dropWhile jsonWsChar

mutual

/-- JSON value parser, recursive descent over a fuel bound; jsonParse supplies
fuel exceeding any possible recursion depth for its input. -/
def pVal : Nat → List Char → Option (Json × List Char)
  | 0, _ => none
  | fuel + 1, cs =>
    match skipJsonWs cs with
    | 't' :: 'r' :: 'u' :: 'e' :: rest => some (.bool true, rest)
    | 'f' :: 'a' :: 'l' :: 's' :: 'e' :: rest => some (.bool false, rest)
    | 'n' :: 'u' :: 'l' :: 'l' :: rest => some (.null, rest)
    | '"' :: rest => (pStrChars rest).map (fun p => (.str (String.mk p.1), p.2))
    | '[' :: rest =>
      (match skipJsonWs rest with
       | ']' :: r2 => some (.arr .nil, r2)
       | r1 => (pItems fuel r1).map (fun p => (.arr p.1, p.2)))
    | '{' :: rest =>
      (match skipJsonWs rest with
       | '}' :: r2 => some (.obj .nil, r2)
       | r1 => (pFields fuel r1).map (fun p => (.obj p.1, p.2)))
    | cs1 => (pNumber cs1).map (fun p => (.num p.1, p.2))

/-- Comma-separated JSON array elements up to the closing bracket. -/
def pItems : Nat → List Char → Option (JsonList × List Char)
  | 0, _ => none
  | fuel + 1, cs =>
    match pVal fuel cs with
    | none => none
    | some (v, r) =>
      match skipJsonWs r with
      | ',' :: r2 => (pItems fuel r2).map (fun p => (.cons v p.1, p.2))
      | ']' :: r2 => some (.cons v .nil, r2)
      | _ => none

/-- Comma-separated JSON object members up to the closing brace. -/
def pFields : Nat → List Char → Option (JsonFields × List Char)
  | 0, _ => none
  | fuel + 1, cs =>
    match skipJsonWs cs with
    | '"' :: rest =>
      match pStrChars rest with
      | none => none
      | some (kcs, r1) =>
        match skipJsonWs r1 with
        | ':' :: r2 =>
          match pVal fuel r2 with
          | none => none
          | some (v, r3) =>
            match skipJsonWs r3 with
            | ',' :: r4 => (pFields fuel r4).map (fun p => (.cons (String.mk kcs) v p.1, p.2))
            | '}' :: r4 => some (.cons (String.mk kcs) v .nil, r4)
            | _ => none
        | _ => none
    | _ => none

end

/-- Model of the JSON.parse builtin: one JSON value padded by whitespace; any
leftover input or grammar violation yields none (the builtin throws). -/
def jsonParse (s : String) : Option Json :=
  match pVal (2 * s.length + 8) s.data with
  | some (j, rest) => if skipJsonWs rest = [] then some j else none
  | none => none

/-- Digit characters of a natural number, most significant first (fuelled
division loop; the fuel supplied by natDec exceeds the digit count). -/
def natDecAux : Nat → Nat → List Char
  | 0, _ => []
  | fuel + 1, n => if n = 0 then [] else natDecAux fuel (n / 10) ++ [Char.ofNat (48 + n % 10)]

/-- Decimal rendering of a natural number, the base of the model of JavaScript
number-to-string conversion for the integer values appearing in this
pipeline. -/
def natDec (n : Nat) : String :=
  if n = 0 then "0" else String.mk (natDecAux (n + 1) n)

/-- Decimal rendering of an integer. -/
def intDec (i : Int) : String := if i < 0 then "-" ++ natDec (-i).toNat else natDec i.toNat

/-- Rendering of a rational as the JavaScript ToString of the number: exact for
integer values; non-integer values use a simplified fraction rendering (the
code under verification only ever renders integer-valued numbers). -/
def numRender (q : ℚ) : String :=
  if q.den = 1 then intDec q.num else intDec q.num ++ "/" ++ natDec q.den

mutual

/-- Model of the JavaScript ToString coercion on JSON.parse values. -/
def jsToStr : Json → String
  | .null => "null"
  | .bool b => if b then "true" else "false"
  | .num q => numRender q
  | .str s => s
  | .arr xs => jsJoin xs
  | .obj _ => "[object Object]"

/-- Array.prototype.join with commas: null elements become empty, the rest
coerce with ToString. -/
def jsJoin : JsonList → String
  | .nil => ""
  | .cons x tl =>
    let ex :=
      match x with
      | Json.null => ""
      | xv => jsToStr xv
    match tl with
    | .nil => ex
    | .cons _ _ => ex ++ "," ++ jsJoin tl

end

/-- Model of the JavaScript Number(string) coercion: surrounding whitespace is
ignored, the empty string is 0, and a signed decimal literal with optional
fraction and exponent is parsed exactly. The non-decimal forms (hex, octal,
binary, Infinity) are modelled as NaN, a documented simplification: those
forms could not be accepted by the 1..10 range check either way. -/
def jsStrToNum (s : String) : Option ℚ :=
  let cs := ((s.data.dropWhile jsWs).reverse.dropWhile jsWs).reverse
  match cs with
  | [] => some 0
  | _ =>
    let (neg, cs1) : Bool × List Char :=
      match cs with
      | '-' :: t => (true, t)
      | '+' :: t => (false, t)
      | _ => (false, cs)
    let (ip, r1) := takeDigits cs1
    let (fds, r2) : List Char × List Char :=
      match r1 with
      | '.' :: t => takeDigits t
      | _ => (([] : List Char), r1)
    if ip = [] ∧ fds = [] then none
    else
      match r2 with
      | [] => some (buildNum neg ip fds 0)
      | 'e' :: t =>
        (pExpVal t).bind (fun p => if p.2 = [] then some (buildNum neg ip fds p.1) else none)
      | 'E' :: t =>
        (pExpVal t).bind (fun p => if p.2 = [] then some (buildNum neg ip fds p.1) else none)
      | _ => none

/-- Model of the JavaScript Number coercion applied to a possibly-undefined
JSON.parse value (none = undefined); a none result models NaN. Objects and
arrays coerce through their ToString. -/
def jsToNumber : Option Json → Option ℚ
  | none => none
  | some .null => some 0
  | some (.bool b) => some (if b then 1 else 0)
  | some (.num q) => some q
  | some (.str s) => jsStrToNum s
  | some (.arr xs) => jsStrToNum (jsToStr (.arr xs))
  | some (.obj fs) => jsStrToNum (jsToStr (.obj fs))

/-- JavaScript falsiness of a possibly-undefined JSON.parse value. -/
def jsFalsy : Option Json → Bool
  | none => true
  | some .null => true
  | some (.bool b) => !b
  | some (.num q) => q == 0
  | some (.str s) => s == ""
  | some (.arr _) => false
  | some (.obj _) => false

/-- Model of the expression String(x or-else ''): a falsy value falls back to
the empty string, anything else is coerced with ToString. -/
def jsOrEmptyStr (v : Option Json) : String :=
  match v with
  | some j => if jsFalsy (some j) then "" else jsToStr j
  | none => ""

/-- Remove every occurrence of the pattern, each optionally followed by one
newline, scanning left to right; models .replace with a global regex of the
literal pattern and an optional trailing newline. The fuel supplied by the
callers exceeds the input length, so it never runs out. -/
def dropPatFuel (pat : List Char) : Nat → List Char → List Char
  | 0, cs => cs
  | fuel + 1, cs =>
    if startsWithChars cs pat then
      match cs.drop pat.length with
      | '\n' :: r2 => dropPatFuel pat fuel r2
      | rest => dropPatFuel pat fuel rest
    else
      match cs with
      | [] => []
      | c :: t => c :: dropPatFuel pat fuel t

/-- String-level wrapper for dropPatFuel. -/
def jsRemoveAll (pat : String) (s : String) : String :=
  String.mk (dropPatFuel pat.data (s.data.length + 1) s.data)

/-- Fence stripping at the top of parseAIResponse (src/agent.ts lines 100-106):
trim, then when the text starts with a json fence remove every json fence
opener and every bare fence, else when it starts with a bare fence remove
every bare fence. -/
def stripCodeFences (response : String) : String :=
  let cleaned := jsTrim response
  if startsWithChars cleaned.data "```json".data then
    jsRemoveAll "```" (jsRemoveAll "```json" cleaned)
  else if startsWithChars cleaned.data "```".data then jsRemoveAll "```" cleaned
  else cleaned

/-- Result of a successful parseAIResponse. -/
structure ScoreReason where
  score : ℚ
  reason : String
deriving DecidableEq, Repr

/-- Embedding of parseAIResponse (src/agent.ts lines 99-127). The source
wraps JSON.parse and the validations in one try/catch whose catch block logs
and rethrows; every failure path is therefore an Except.error carrying the
corresponding message. -/
def parseAIResponse (response : String) : Except JsError ScoreReason :=
  let cleaned := stripCodeFences response
  match jsonParse cleaned with
  | none => .error ⟨"无法解析AI响应: JSON parse error"⟩
  | some parsed =>
    let score := jsToNumber (parsed.getField "score")
    let reason := jsOrEmptyStr (parsed.getField "reason")
    match score with
    | none => .error ⟨"无效的评分: NaN，必须在1-10之间"⟩
    | some q =>
      if q < 1 ∨ q > 10 then .error ⟨"无效的评分，必须在1-10之间"⟩
      else if reason = "" ∨ jsTrim reason = "" then .error ⟨"缺少匹配理由"⟩
      else .ok ⟨q, jsTrim reason⟩

/-- Source enumeration of src/types.ts. -/
inductive Source where
  | remoteok
  | weworkremotely
  | web3career
  | hnhiring
  | jobicy
  | cryptojobslist
  | workingnomads
  | remotive
deriving DecidableEq, Repr

/-- Tag string of a source, as it appears in job ids. -/
def Source.tag : Source → String
  | .remoteok => "remoteok"
  | .weworkremotely => "weworkremotely"
  | .web3career => "web3career"
  | .hnhiring => "hnhiring"
  | .jobicy => "jobicy"
  | .cryptojobslist => "cryptojobslist"
  | .workingnomads => "workingnomads"
  | .remotive => "remotive"

/-- Canonical Job of src/types.ts; postedAt is a JavaScript Date modelled as
epoch milliseconds, none for an Invalid Date. -/
structure Job where
  id : String
  title : String
  company : String
  description : String
  url : String
  postedAt : Option Int
  source : Source
deriving DecidableEq, Repr

/-- AnalyzedJob of src/types.ts: a Job plus score and reason. -/
structure AnalyzedJob where
  toJob : Job
  score : ℚ
  reason : String
deriving DecidableEq, Repr

/-- Embedding of analyzeJob (src/agent.ts lines 132-182). The oracle call —
callClaudeAPI or the OpenAI-compatible chat completion — is an external effect
modelled by its outcome; for the OpenAI branch the or-else '' on a missing
message content is part of that outcome. Both provider branches treat empty
content as a hard failure, and the final catch block only logs and rethrows. -/
def analyzeJob (oracle : Except JsError String) (job : Job) : Except JsError AnalyzedJob :=
  match oracle with
  | .error e => .error e
  | .ok content =>
    if content = "" then .error ⟨"AI返回空响应"⟩
    else
      match parseAIResponse content with
      | .error e => .error e
      | .ok sr => .ok ⟨job, sr.score, sr.reason⟩

/-- Ambient JavaScript effects used by the scraper: the current time Date.now,
the implementation-defined date-string recogniser behind the Date constructor
(none models an unrecognised format, which yields an Invalid Date), and the
ISO rendering of the current time. -/
structure JsEnv where
  now : Int
  dateParse : String → Option Int
  nowIso : String

/-- Behaviour of new Date(string): the constructor never throws; an
unrecognised format produces an Invalid Date (none). -/
def jsNewDate (env : JsEnv) (s : String) : Except JsError (Option Int) :=
  .ok (env.dateParse s)

/-- Embedding of parseDate (src/scraper.ts lines 601-607): try returning
new Date(dateString), falling back to new Date() when it throws. Because the
Date constructor never throws on a string, the catch branch is unreachable. -/
def parseDate (env : JsEnv) (dateString : String) : Option Int :=
  match jsNewDate env dateString with
  | .ok d => d
  | .error _ => some env.now

/-- The or-else idiom on a possibly-undefined string: x or-else d. -/
def jsOrStr (v : Option String) (d : String) : String :=
  match v with
  | some s => if s = "" then d else s
  | none => d

/-- Truthiness of a possibly-undefined string. -/
def optTruthy (v : Option String) : Bool :=
  match v with
  | some s => s != ""
  | none => false

/-- Input remaining after the first at-sign. -/
def afterFirstAt : List Char → Option (List Char)
  | [] => none
  | '@' :: rest => some rest
  | _ :: rest => afterFirstAt rest

/-- Embedding of extractCompanyFromTitle (src/scraper.ts lines 593-596): the
regex matches at the first at-sign having at least one character after it, and
the caller trims the capture; the result is the trimmed remainder of the
title. -/
def extractCompanyFromTitle (title : String) : Option String :=
  match afterFirstAt title.data with
  | none => none
  | some rest => if rest = [] then none else some (jsTrim (String.mk rest))

/-- First capture of the slash-digits regex of the weworkremotely branch: the
maximal digit run after the first slash immediately followed by a digit. -/
def firstSlashDigits : List Char → Option (List Char)
  | [] => none
  | '/' :: c :: rest =>
    if c.isDigit then some ((c :: rest).takeWhile Char.isDigit)
    else firstSlashDigits (c :: rest)
  | _ :: rest => firstSlashDigits rest

/-- Wrap an integer to the int32 range, as the JavaScript bitwise operations
do (two's complement). -/
def toInt32 (n : Int) : Int :=
  let r := n % 4294967296
  let r := if r < 0 then r + 4294967296 else r
  if 2147483648 ≤ r then r - 4294967296 else r

/-- One step of hashString: hash = ((hash shifted left by 5) - hash + code)
wrapped to int32 by the bitwise and. -/
def hashStep (h : Int) (code : Nat) : Int :=
  toInt32 (toInt32 (h * 32) - h + code)

/-- Base-36 digit characters, as Number.prototype.toString(36) uses. -/
def base36Char (n : Nat) : Char :=
  if n < 10 then Char.ofNat (48 + n) else Char.ofNat (87 + n)

/-- Digits of the base-36 rendering (fuelled division loop; the fuel supplied
exceeds the digit count). -/
def toBase36Aux : Nat → Nat → List Char
  | 0, _ => []
  | fuel + 1, n => if n = 0 then [] else toBase36Aux fuel (n / 36) ++ [base36Char (n % 36)]

/-- Base-36 rendering of a natural number. -/
def toBase36 (n : Nat) : String :=
  if n = 0 then "0" else String.mk (toBase36Aux (n + 1) n)

/-- Embedding of hashString (src/scraper.ts lines 532-540). Character codes
are UTF-16 units in JavaScript, modelled by the scalar value — identical on
ASCII input. -/
def hashString (str : String) : String :=
  let h := str.data.foldl (fun h c => hashStep h c.toNat) 0
  toBase36 (Int.natAbs h)

/-- Raw RemoteOK record (src/scraper.ts interface RemoteOKJob); epoch is the
source-native posting time in seconds. -/
structure RemoteOKJob where
  id : String
  position : String
  company : String
  description : String
  url : String
  epoch : Int
deriving DecidableEq, Repr

/-- Raw WeWorkRemotely RSS item (src/scraper.ts interface WWRItem). -/
structure WWRItem where
  title : String
  link : String
  description : String
  pubDate : String
deriving DecidableEq, Repr

/-- Raw Web3Career record (src/scraper.ts interface Web3CareerJob); the
numeric id is modelled as a natural number (the JSON API path yields integer
ids; the rendering in the job id is its decimal form). -/
structure Web3CareerJob where
  id : Nat
  title : String
  company : String
  description : Option String
  location : Option String
  remote : Option Bool
  url : Option String
  slug : Option String
  created_at : Option String
  published_at : Option String
deriving DecidableEq, Repr

/-- Union of the raw record shapes accepted by normalizeJob. -/
inductive RawJob where
  | remoteOK (j : RemoteOKJob)
  | wwr (j : WWRItem)
  | web3 (j : Web3CareerJob)
deriving DecidableEq, Repr

/-- Embedding of normalizeJob (src/scraper.ts lines 545-588). The TypeScript
union cast is only ever exercised with the raw variant matching the source
tag; a mismatched pair has no meaning in the source and is mapped to none.
In the web3career branch the conditional binds as
(url or-else slug) ? slug-url : default, reproducing the source's operator
precedence, and a missing slug interpolates as the text undefined. -/
def normalizeJob (env : JsEnv) (rawJob : RawJob) (source : Source) : Option Job :=
  match source, rawJob with
  | .remoteok, .remoteOK job => some {
      id := "remoteok-" ++ job.id,
      title := if job.position = "" then "Untitled" else job.position,
      company := if job.company = "" then "Unknown" else job.company,
      description := job.description,
      url := if job.url = "" then "https://remoteok.com/remote-jobs/" ++ job.id else job.url,
      postedAt := some (job.epoch * 1000),
      source := .remoteok }
  | .weworkremotely, .wwr job =>
    let urlMatch := firstSlashDigits job.link.data
    let id := match urlMatch with
      | some ds => "weworkremotely-" ++ String.mk ds
      | none => "weworkremotely-" ++ intDec env.now
    some {
      id := id,
      title := if job.title = "" then "Untitled" else job.title,
      company := jsOrStr (extractCompanyFromTitle job.title) "Unknown",
      description := job.description,
      url := job.link,
      postedAt := parseDate env job.pubDate,
      source := .weworkremotely }
  | .web3career, .web3 job => some {
      id := "web3career-" ++ natDec job.id,
      title := if job.title = "" then "Untitled" else job.title,
      company := if job.company = "" then "Unknown" else job.company,
      description := job.description.getD "",
      url := if optTruthy job.url || optTruthy job.slug then
               "https://web3.career/" ++ (match job.slug with | some sl => sl | none => "undefined")
             else "https://web3.career",
      postedAt := parseDate env (jsOrStr job.published_at (jsOrStr job.created_at env.nowIso)),
      source := .web3career }
  | _, _ => none

/-- Embedding of filterByTime (src/scraper.ts lines 612-620): now is captured
once before the filter; a job is kept when 0 ≤ now − postedAt ≤ threshold
milliseconds. An Invalid Date (none) makes getTime() NaN, on which both
comparisons are false. -/
def filterByTime (now : Int) (jobs : List Job) (hoursThreshold : Int) : List Job :=
  let threshold := hoursThreshold * 60 * 60 * 1000
  jobs.filter (fun job =>
    match job.postedAt with
    | some t => decide (0 ≤ now - t) && decide (now - t ≤ threshold)
    | none => false)

/-- Shape of parsed.rss.channel.item after XML parsing: missing, one single
object, or an array (src/scraper.ts lines 83-88). -/
inductive RssItems where
  | absent : RssItems
  | one (item : WWRItem) : RssItems
  | many (items : List WWRItem) : RssItems

/-- Result of the XML parse of the feed body. -/
structure RssDoc where
  items : RssItems

/-- Item list derived from parsed.rss.channel.item: missing gives the empty
list, a single object is wrapped, an array is taken as is. -/
def RssItems.toList : RssItems → List WWRItem
  | .absent => []
  | .one i => [i]
  | .many l => l

/-- Body of the try block of fetchWWRJobs: fetch, XML-parse, then normalize
every item having truthy title and link; the per-item try/catch never fires
because normalizeJob is total. The fetch and the XML parser are external
effects given by their outcomes. -/
def fetchWWRAttempt (env : JsEnv) (fetchResult : Except JsError String)
    (parseXml : String → Except JsError RssDoc) : Except JsError (List Job) :=
  match fetchResult with
  | .error e => .error e
  | .ok data =>
    match parseXml data with
    | .error e => .error e
    | .ok parsed =>
      .ok (parsed.items.toList.filterMap (fun item =>
        if item.title = "" ∨ item.link = "" then none
        else normalizeJob env (.wwr item) .weworkremotely))

/-- Embedding of fetchWWRJobs (src/scraper.ts lines 68-114). The catch block
returns an empty list when the thrown error's message contains 'XML', and
rethrows every other error. -/
def fetchWWRJobs (env : JsEnv) (fetchResult : Except JsError String)
    (parseXml : String → Except JsError RssDoc) : Except JsError (List Job) :=
  match fetchWWRAttempt env fetchResult parseXml with
  | .ok jobs => .ok jobs
  | .error e => if jsIncludes e.message "XML" then .ok [] else .error e

/-- Persisted dedup state of src/types.ts (interface ProcessedJobs). -/
structure ProcessedJobs where
  jobIds : List String
  lastUpdated : String
deriving DecidableEq, Repr

/-- Embedding of loadProcessedJobs (src/storage.ts lines 138-151): the backing
file is modelled by its parsed state, none when absent. A corrupt file also
degrades to the empty list in the source; corruption is not modelled
separately. -/
def loadProcessedJobs (store : Option ProcessedJobs) : List String :=
  match store with
  | none => []
  | some data => data.jobIds

/-- Embedding of saveProcessedJob (src/storage.ts lines 156-181): load the
existing ids, return unchanged when the id is already present, otherwise
append it and persist the full set with a fresh timestamp. -/
def saveProcessedJob (jobId : String) (nowIso : String) (store : Option ProcessedJobs) :
    Option ProcessedJobs :=
  let existingIds := loadProcessedJobs store
  if jobId ∈ existingIds then store
  else some ⟨existingIds ++ [jobId], nowIso⟩

/-- Embedding of isJobProcessed (src/storage.ts lines 186-189). -/
def isJobProcessed (jobId : String) (store : Option ProcessedJobs) : Bool :=
  (loadProcessedJobs store).contains jobId

/-- Embedding of clearProcessedJobs (src/storage.ts lines 194-211). -/
def clearProcessedJobs (nowIso : String) : Option ProcessedJobs :=
  some ⟨[], nowIso⟩

/-- Embedding of the scoring loop of processJobs (src/index.ts lines 113-127):
jobs are scored strictly sequentially; a success is appended to the analyzed
list and the id persisted; on failure the catch block persists the id anyway
and the loop continues with the next job. The per-job analyzeJob outcome is
supplied as a function (the oracle is external); the dedup-store write is
assumed to succeed. -/
def scoreLoop (analyze : Job → Except JsError AnalyzedJob) (nowIso : String) :
    List Job → List AnalyzedJob → Option ProcessedJobs →
    List AnalyzedJob × Option ProcessedJobs
  | [], analyzed, store => (analyzed, store)
  | job :: rest, analyzed, store =>
    match analyze job with
    | .ok a =>
      scoreLoop analyze nowIso rest (analyzed ++ [a]) (saveProcessedJob job.id nowIso store)
    | .error _ =>
      scoreLoop analyze nowIso rest analyzed (saveProcessedJob job.id nowIso store)

/-- Concrete job record used by witness instantiations. -/
def demoJob : Job :=
  { id := "remoteok-1", title := "Dev", company := "Acme", description := "d",
    url := "https://remoteok.com/remote-jobs/1", postedAt := some 0, source := .remoteok }

/-- An id just saved is loadable. -/
lemma saveProcessedJob_mem_self (store : Option ProcessedJobs) (jobId iso : String) :
    jobId ∈ loadProcessedJobs (saveProcessedJob jobId iso store) := by
  unfold saveProcessedJob
  by_cases h : jobId ∈ loadProcessedJobs store
  · rw [if_pos h]; exact h
  · rw [if_neg h]; simp [loadProcessedJobs]

/-- Saving never removes a loadable id. -/
lemma saveProcessedJob_mem_mono (store : Option ProcessedJobs) (x other iso : String)
    (hx : x ∈ loadProcessedJobs store) :
    x ∈ loadProcessedJobs (saveProcessedJob other iso store) := by
  unfold saveProcessedJob
  by_cases h : other ∈ loadProcessedJobs store
  · rw [if_pos h]; exact hx
  · rw [if_neg h]
    simp only [loadProcessedJobs, List.mem_append]
    exact Or.inl hx

/-- Ids in the store survive the whole scoring loop. -/
lemma scoreLoop_store_mono (analyze : Job → Except JsError AnalyzedJob) (iso : String) :
    ∀ (jobs : List Job) (acc : List AnalyzedJob) (store : Option ProcessedJobs) (x : String),
      x ∈ loadProcessedJobs store →
      x ∈ loadProcessedJobs (scoreLoop analyze iso jobs acc store).2 := by
  intro jobs
  induction jobs with
  | nil => intro acc store x hx; simpa [scoreLoop]
  | cons job rest ih =>
    intro acc store x hx
    cases ha : analyze job with
    | ok a => simp only [scoreLoop, ha]; exact ih _ _ x (saveProcessedJob_mem_mono _ _ _ _ hx)
    | error e => simp only [scoreLoop, ha]; exact ih _ _ x (saveProcessedJob_mem_mono _ _ _ _ hx)

/-- C6: every job that enters the scoring loop has its id persisted to the
dedup store after its attempt, whether analyzeJob succeeded or threw, and a
per-job failure does not abort the batch — the analyzed output extends the
accumulator with exactly the successful outcomes of all jobs, in order. -/
theorem scoreLoop_marks_processed_and_continues
    (analyze : Job → Except JsError AnalyzedJob) (iso : String) (jobs : List Job)
    (acc : List AnalyzedJob) (store : Option ProcessedJobs) :
    (∀ j : Job, j ∈ jobs → j.id ∈ loadProcessedJobs (scoreLoop analyze iso jobs acc store).2)
    ∧ (scoreLoop analyze iso jobs acc store).1
        = acc ++ jobs.filterMap (fun j => (analyze j).toOption) := by
  induction jobs generalizing acc store with
  | nil => exact ⟨by simp, by simp [scoreLoop]⟩
  | cons job rest ih =>
    cases ha : analyze job with
    | ok a =>
      refine ⟨?_, ?_⟩
      · intro j hj
        rcases List.mem_cons.mp hj with rfl | hjr
        · simp only [scoreLoop, ha]
          exact scoreLoop_store_mono analyze iso rest _ _ _
            (saveProcessedJob_mem_self _ _ _)
        · simp only [scoreLoop, ha]
          exact (ih _ _).1 j hjr
      · simp only [scoreLoop, ha, (ih _ _).2, List.filterMap_cons, Except.toOption]
        simp
    | error e =>
      refine ⟨?_, ?_⟩
      · intro j hj
        rcases List.mem_cons.mp hj with rfl | hjr
        · simp only [scoreLoop, ha]
          exact scoreLoop_store_mono analyze iso rest _ _ _
            (saveProcessedJob_mem_self _ _ _)
        · simp only [scoreLoop, ha]
          exact (ih _ _).1 j hjr
      · simp only [scoreLoop, ha, (ih _ _).2, List.filterMap_cons, Except.toOption]

/-- Witness for C6: a job whose analysis fails is still marked processed. -/
theorem scoreLoop_marks_processed_witness :
    demoJob.id ∈ loadProcessedJobs
      (scoreLoop (fun _ => .error ⟨"boom"⟩) "t" [demoJob] [] none).2 :=
  (scoreLoop_marks_processed_and_continues (fun _ => .error ⟨"boom"⟩) "t" [demoJob] [] none).1
    demoJob (by simp)

/-- C7: filterByTime keeps exactly the input jobs whose age now − postedAt
lies in [0, hours·3600000] milliseconds, and a job with a future postedAt is
excluded rather than clamped or retained. -/
theorem filterByTime_window (now : Int) (jobs : List Job) (hours : Int) :
    (∀ j : Job, j ∈ filterByTime now jobs hours ↔
        j ∈ jobs ∧ ∃ t : Int, j.postedAt = some t ∧ 0 ≤ now - t ∧ now - t ≤ hours * 3600000)
    ∧ (∀ (j : Job) (t : Int), j.postedAt = some t → now < t →
        j ∉ filterByTime now jobs hours) := by
  have hiff : ∀ j : Job, j ∈ filterByTime now jobs hours ↔
      j ∈ jobs ∧ ∃ t : Int, j.postedAt = some t ∧ 0 ≤ now - t ∧ now - t ≤ hours * 3600000 := by
    intro j
    unfold filterByTime
    rw [List.mem_filter]
    constructor
    · rintro ⟨hmem, hp⟩
      refine ⟨hmem, ?_⟩
      cases hpa : j.postedAt with
      | none => rw [hpa] at hp; simp at hp
      | some t =>
        rw [hpa] at hp
        simp only [Bool.and_eq_true, decide_eq_true_eq] at hp
        exact ⟨t, rfl, hp.1, by linarith [hp.2]⟩
    · rintro ⟨hmem, t, hpa, h1, h2⟩
      refine ⟨hmem, ?_⟩
      rw [hpa]
      simp only [Bool.and_eq_true, decide_eq_true_eq]
      exact ⟨h1, by linarith⟩
  refine ⟨hiff, ?_⟩
  intro j t hpa hlt hmem
  rcases (hiff j).1 hmem with ⟨-, t', hpa', h1, -⟩
  rw [hpa] at hpa'
  have : t = t' := by injection hpa'
  omega

/-- Witness for C7: a job posted in the future relative to now is dropped. -/
theorem filterByTime_window_witness :
    { demoJob with postedAt := some 2000 } ∉
      filterByTime 1000 [{ demoJob with postedAt := some 2000 }] 24 :=
  (filterByTime_window 1000 [{ demoJob with postedAt := some 2000 }] 24).2
    { demoJob with postedAt := some 2000 } 2000 rfl (by norm_num)

/-- C8: dedup round-trip and idempotence — after add(id) a subsequent load()
contains the id, for every store state; and adding the same id twice starting
from the empty store yields a stored set of size 1, not 2. -/
theorem saveProcessedJob_roundtrip_idempotent :
    (∀ (store : Option ProcessedJobs) (jobId iso : String),
        jobId ∈ loadProcessedJobs (saveProcessedJob jobId iso store))
    ∧ (∀ (jobId iso1 iso2 : String),
        (loadProcessedJobs (saveProcessedJob jobId iso2
          (saveProcessedJob jobId iso1 none))).length = 1) := by
  refine ⟨fun store jobId iso => saveProcessedJob_mem_self store jobId iso, ?_⟩
  intro jobId iso1 iso2
  simp [saveProcessedJob, loadProcessedJobs]

/-- C10: filterByTime returns an order-preserving sublist of its input — every
output element is an input element unchanged, relative order is preserved, and
no element occurs more often than in the input. -/
theorem filterByTime_output_sublist (now : Int) (jobs : List Job) (hours : Int) :
    (filterByTime now jobs hours).Sublist jobs
    ∧ ∀ j : Job, (filterByTime now jobs hours).count j ≤ jobs.count j := by
  unfold filterByTime
  exact ⟨List.filter_sublist _, fun j => (List.filter_sublist _).count_le j⟩

/-- C2 counterexample: a parse failure on content that is not well-formed XML
(the thrown error carries the XML-malformedness message) is swallowed by
fetchWWRJobs, which returns an empty list instead of throwing. -/
theorem fetchWWRJobs_parse_failure_yields_empty :
    fetchWWRJobs ⟨0, fun _ => none, ""⟩ (.ok "<rss><channel><bad")
      (fun _ => .error ⟨"Invalid XML: unexpected end of input"⟩) = .ok [] := rfl

/-- C2 amended: in fetchWWRJobs a network-layer failure — an error whose
message does not contain 'XML' — propagates as a thrown error, while a parse
failure on content that is not well-formed XML — an error whose message
contains 'XML' — is swallowed and an empty list is returned. -/
theorem fetchWWRJobs_error_policy (env : JsEnv) (fetchResult : Except JsError String)
    (parseXml : String → Except JsError RssDoc) (e : JsError) :
    (fetchResult = .error e → jsIncludes e.message "XML" = false →
      fetchWWRJobs env fetchResult parseXml = .error e)
    ∧ (∀ body : String, fetchResult = .ok body → parseXml body = .error e →
        jsIncludes e.message "XML" = true →
        fetchWWRJobs env fetchResult parseXml = .ok []) := by
  constructor
  · intro hf hx
    subst hf
    simp [fetchWWRJobs, fetchWWRAttempt, hx]
  · intro body hf hp hx
    subst hf
    simp [fetchWWRJobs, fetchWWRAttempt, hp, hx]

/-- Witness for C2 amended: a connection failure propagates out of
fetchWWRJobs. -/
theorem fetchWWRJobs_error_policy_witness :
    fetchWWRJobs ⟨0, fun _ => none, ""⟩ (.error ⟨"ECONNREFUSED 127.0.0.1"⟩)
      (fun _ => .ok ⟨.absent⟩) = .error ⟨"ECONNREFUSED 127.0.0.1"⟩ :=
  (fetchWWRJobs_error_policy ⟨0, fun _ => none, ""⟩ (.error ⟨"ECONNREFUSED 127.0.0.1"⟩)
    (fun _ => .ok ⟨.absent⟩) ⟨"ECONNREFUSED 127.0.0.1"⟩).1 rfl rfl

/-- C3: evaluation at the failing input. On an unparseable date string the
normalized record still succeeds but carries an Invalid Date (none) as
postedAt, and parseDate does not fall back to the current time: the catch
branch of parseDate is dead because the Date constructor never throws. -/
theorem parseDate_invalid_not_now :
    (normalizeJob ⟨1700000000000, fun _ => none, "2023-11-14T22:13:20.000Z"⟩
        (.wwr ⟨"Dev @ Acme", "https://weworkremotely.com/remote-jobs/101-dev", "d",
          "not-a-date"⟩) .weworkremotely).map Job.postedAt = some none
    ∧ parseDate ⟨1700000000000, fun _ => none, "2023-11-14T22:13:20.000Z"⟩ "not-a-date"
        ≠ some (1700000000000 : Int) := by
  refine ⟨rfl, ?_⟩
  simp [parseDate, jsNewDate]

/-- Data of a string concatenation. -/
lemma str_data_append (s t : String) : (s ++ t).data = s.data ++ t.data := rfl

/-- Strings with equal data are equal. -/
lemma str_eq_of_data {s t : String} (h : s.data = t.data) : s = t := by
  cases s; cases t; exact congrArg String.mk h

/-- Left cancellation for string concatenation. -/
lemma str_append_left_cancel {p a b : String} (h : p ++ a = p ++ b) : a = b := by
  apply str_eq_of_data
  have h2 : p.data ++ a.data = p.data ++ b.data := by
    rw [← str_data_append, ← str_data_append, h]
  exact List.append_cancel_left h2

/-- Ids prefixed by the remoteok tag and the weworkremotely tag never
coincide. -/
lemma tagged_ne_ro_wwr (a b : String) :
    ("remoteok" ++ "-" ++ a) ≠ ("weworkremotely" ++ "-" ++ b) := by
  intro h
  have h2 : ("remoteok" ++ "-" ++ a).data = ("weworkremotely" ++ "-" ++ b).data := by rw [h]
  simp only [str_data_append] at h2
  have e1 : ("remoteok".data ++ "-".data : List Char) = 'r' :: "emoteok-".data := rfl
  have e2 : ("weworkremotely".data ++ "-".data : List Char) = 'w' :: "eworkremotely-".data := rfl
  rw [e1, e2] at h2
  simp only [List.cons_append] at h2
  exact absurd (List.head_eq_of_cons_eq h2) (by decide)

/-- Ids prefixed by the remoteok tag and the web3career tag never coincide. -/
lemma tagged_ne_ro_w3 (a b : String) :
    ("remoteok" ++ "-" ++ a) ≠ ("web3career" ++ "-" ++ b) := by
  intro h
  have h2 : ("remoteok" ++ "-" ++ a).data = ("web3career" ++ "-" ++ b).data := by rw [h]
  simp only [str_data_append] at h2
  have e1 : ("remoteok".data ++ "-".data : List Char) = 'r' :: "emoteok-".data := rfl
  have e2 : ("web3career".data ++ "-".data : List Char) = 'w' :: "eb3career-".data := rfl
  rw [e1, e2] at h2
  simp only [List.cons_append] at h2
  exact absurd (List.head_eq_of_cons_eq h2) (by decide)

/-- Ids prefixed by the weworkremotely tag and the web3career tag never
coincide. -/
lemma tagged_ne_wwr_w3 (a b : String) :
    ("weworkremotely" ++ "-" ++ a) ≠ ("web3career" ++ "-" ++ b) := by
  intro h
  have h2 : ("weworkremotely" ++ "-" ++ a).data = ("web3career" ++ "-" ++ b).data := by rw [h]
  simp only [str_data_append] at h2
  have e1 : ("weworkremotely".data ++ "-".data : List Char)
      = 'w' :: 'e' :: 'w' :: "orkremotely-".data := rfl
  have e2 : ("web3career".data ++ "-".data : List Char)
      = 'w' :: 'e' :: 'b' :: "3career-".data := rfl
  rw [e1, e2] at h2
  simp only [List.cons_append] at h2
  injection h2 with hh ht
  injection ht with hh2 ht2
  injection ht2 with hh3 _
  exact absurd hh3 (by decide)

/-- Code of a digit character. -/
lemma toNat_digitChar : ∀ d < 10, (Char.ofNat (48 + d)).toNat = 48 + d := by decide

/-- digitsVal of a snoc. -/
lemma digitsVal_snoc (l : List Char) (c : Char) :
    digitsVal (l ++ [c]) = digitsVal l * 10 + (c.toNat - 48) := by
  unfold digitsVal
  rw [List.foldl_append]
  rfl

/-- digitsVal recovers the number from its natDecAux rendering when the fuel
covers it. -/
lemma natDecAux_val : ∀ (fuel n : Nat), n < fuel → digitsVal (natDecAux fuel n) = n := by
  intro fuel
  induction fuel with
  | zero => intro n h; omega
  | succ f ih =>
    intro n h
    by_cases hn : n = 0
    · subst hn; rfl
    · show digitsVal (if n = 0 then [] else natDecAux f (n / 10) ++ [Char.ofNat (48 + n % 10)]) = n
      rw [if_neg hn, digitsVal_snoc, ih (n / 10) (by omega)]
      have h10 : n % 10 < 10 := Nat.mod_lt _ (by norm_num)
      rw [toNat_digitChar _ h10]
      omega

/-- natDec is undone by digitsVal. -/
lemma natDec_leftInverse (n : Nat) : digitsVal (natDec n).data = n := by
  by_cases hn : n = 0
  · subst hn; rfl
  · unfold natDec
    rw [if_neg hn]
    exact natDecAux_val (n + 1) n (by omega)

/-- The decimal rendering of naturals is injective. -/
lemma natDec_inj {m n : Nat} (h : natDec m = natDec n) : m = n := by
  have h2 := congrArg (fun s => digitsVal s.data) h
  simpa [natDec_leftInverse] using h2

/-- Every id produced by normalizeJob is the source tag, a dash, and a
source-native rest. -/
lemma normalizeJob_id_tagged (env : JsEnv) (rawJob : RawJob) (source : Source) (job : Job)
    (h : normalizeJob env rawJob source = some job) :
    ∃ rest : String, job.id = source.tag ++ "-" ++ rest := by
  cases source with
  | remoteok =>
    cases rawJob with
    | remoteOK r =>
      simp only [normalizeJob, Option.some.injEq] at h
      exact ⟨r.id, by rw [← h]; rfl⟩
    | wwr w => exact Option.noConfusion h
    | web3 g => exact Option.noConfusion h
  | weworkremotely =>
    cases rawJob with
    | remoteOK r => exact Option.noConfusion h
    | wwr w =>
      cases hm : firstSlashDigits w.link.data with
      | some ds =>
        simp only [normalizeJob, hm, Option.some.injEq] at h
        exact ⟨String.mk ds, by rw [← h]; rfl⟩
      | none =>
        simp only [normalizeJob, hm, Option.some.injEq] at h
        exact ⟨intDec env.now, by rw [← h]; rfl⟩
    | web3 g => exact Option.noConfusion h
  | web3career =>
    cases rawJob with
    | remoteOK r => exact Option.noConfusion h
    | wwr w => exact Option.noConfusion h
    | web3 g =>
      simp only [normalizeJob, Option.some.injEq] at h
      exact ⟨natDec g.id, by rw [← h]; rfl⟩
  | hnhiring => cases rawJob <;> exact Option.noConfusion h
  | jobicy => cases rawJob <;> exact Option.noConfusion h
  | cryptojobslist => cases rawJob <;> exact Option.noConfusion h
  | workingnomads => cases rawJob <;> exact Option.noConfusion h
  | remotive => cases rawJob <;> exact Option.noConfusion h

/-- C4 counterexample: on the weworkremotely branch with a link containing no
numeric segment, the id embeds Date.now() — two calls on the same raw record
at different times return different ids. -/
theorem normalizeJob_wwr_id_time_dependent :
    (normalizeJob ⟨1, fun _ => none, ""⟩
        (.wwr ⟨"Dev @ Acme", "https://weworkremotely.com/listings/senior-dev", "d", "p"⟩)
        .weworkremotely).map Job.id
    ≠ (normalizeJob ⟨2, fun _ => none, ""⟩
        (.wwr ⟨"Dev @ Acme", "https://weworkremotely.com/listings/senior-dev", "d", "p"⟩)
        .weworkremotely).map Job.id := by decide

/-- C4 amended: every id produced by normalizeJob starts with the source tag
followed by a dash, and the id is deterministic in the raw record and source
tag on every branch except the weworkremotely branch whose link contains no
numeric segment, where the id embeds the current time. -/
theorem normalizeJob_id_prefix_deterministic :
    (∀ (env : JsEnv) (rawJob : RawJob) (source : Source) (job : Job),
        normalizeJob env rawJob source = some job →
        ∃ rest : String, job.id = source.tag ++ "-" ++ rest)
    ∧ (∀ (env env' : JsEnv) (rawJob : RawJob) (source : Source),
        (match rawJob, source with
         | .wwr w, .weworkremotely => (firstSlashDigits w.link.data).isSome
         | _, _ => true) = true →
        (normalizeJob env rawJob source).map Job.id
          = (normalizeJob env' rawJob source).map Job.id) := by
  refine ⟨fun env raw s job h => normalizeJob_id_tagged env raw s job h, ?_⟩
  intro env env' rawJob source hguard
  cases rawJob with
  | remoteOK r => cases source <;> rfl
  | web3 g => cases source <;> rfl
  | wwr w =>
    cases source with
    | remoteok => rfl
    | web3career => rfl
    | hnhiring => rfl
    | jobicy => rfl
    | cryptojobslist => rfl
    | workingnomads => rfl
    | remotive => rfl
    | weworkremotely =>
      have hg2 : (firstSlashDigits w.link.data).isSome = true := hguard
      cases hm : firstSlashDigits w.link.data with
      | none => rw [hm] at hg2; simp at hg2
      | some ds => simp only [normalizeJob, hm]; rfl

/-- Concrete normalized remoteok job used by witnesses. -/
def demoNormalized : Job :=
  { id := "remoteok-1", title := "Dev", company := "Acme", description := "d",
    url := "u", postedAt := some 0, source := .remoteok }

/-- Witness for C4 amended: the id of a concrete normalized job starts with
its source tag. -/
theorem normalizeJob_id_prefix_witness :
    ∃ rest : String, demoNormalized.id = Source.remoteok.tag ++ "-" ++ rest :=
  (normalizeJob_id_prefix_deterministic).1 ⟨0, fun _ => none, ""⟩
    (.remoteOK ⟨"1", "Dev", "Acme", "d", "u", 0⟩) .remoteok demoNormalized (by decide)

/-- C5 counterexample: two weworkremotely records with different links (their
native identity) whose links share the first numeric segment normalize to the
same id; and the last-resort string hash used for id generation collides on
different inputs. -/
theorem normalizeJob_id_collision :
    (normalizeJob ⟨999, fun _ => none, ""⟩
        (.wwr ⟨"Frontend Dev @ Acme", "https://weworkremotely.com/remote-jobs/100-frontend-dev",
          "d1", "p1"⟩) .weworkremotely).map Job.id
      = (normalizeJob ⟨999, fun _ => none, ""⟩
        (.wwr ⟨"Backend Dev @ Bcme", "https://weworkremotely.com/remote-jobs/100-backend-dev",
          "d2", "p2"⟩) .weworkremotely).map Job.id
    ∧ ("https://weworkremotely.com/remote-jobs/100-frontend-dev" : String)
        ≠ "https://weworkremotely.com/remote-jobs/100-backend-dev"
    ∧ hashString "Aa" = hashString "BB"
    ∧ ("Aa" : String) ≠ "BB" := by decide

/-- C5 amended: ids from different source tags never collide (the tag is
embedded in the id); within remoteok different native id strings give
different ids; within web3career different native numeric ids give different
ids; within weworkremotely, ids are distinct whenever the first numeric
segments extracted from the links differ — but not in general for different
links. -/
theorem normalizeJob_id_uniqueness_policy :
    (∀ (env env' : JsEnv) (r r' : RawJob) (s s' : Source) (j j' : Job),
        s ≠ s' → normalizeJob env r s = some j → normalizeJob env' r' s' = some j' →
        j.id ≠ j'.id)
    ∧ (∀ (env env' : JsEnv) (a b : RemoteOKJob) (j j' : Job),
        a.id ≠ b.id →
        normalizeJob env (.remoteOK a) .remoteok = some j →
        normalizeJob env' (.remoteOK b) .remoteok = some j' → j.id ≠ j'.id)
    ∧ (∀ (env env' : JsEnv) (a b : Web3CareerJob) (j j' : Job),
        a.id ≠ b.id →
        normalizeJob env (.web3 a) .web3career = some j →
        normalizeJob env' (.web3 b) .web3career = some j' → j.id ≠ j'.id)
    ∧ (∀ (env env' : JsEnv) (a b : WWRItem) (da db : List Char) (j j' : Job),
        firstSlashDigits a.link.data = some da → firstSlashDigits b.link.data = some db →
        da ≠ db →
        normalizeJob env (.wwr a) .weworkremotely = some j →
        normalizeJob env' (.wwr b) .weworkremotely = some j' → j.id ≠ j'.id) := by
  refine ⟨?_, ?_, ?_, ?_⟩
  · intro env env' r r' s s' j j' hss h1 h2
    rcases normalizeJob_id_tagged env r s j h1 with ⟨ra, hia⟩
    rcases normalizeJob_id_tagged env' r' s' j' h2 with ⟨rb, hib⟩
    rw [hia, hib]
    cases s <;> cases s' <;>
      first
      | exact absurd rfl hss
      | (cases r <;> exact Option.noConfusion h1)
      | (cases r' <;> exact Option.noConfusion h2)
      | exact tagged_ne_ro_wwr ra rb
      | exact tagged_ne_ro_w3 ra rb
      | exact tagged_ne_wwr_w3 ra rb
      | exact (tagged_ne_ro_wwr rb ra).symm
      | exact (tagged_ne_ro_w3 rb ra).symm
      | exact (tagged_ne_wwr_w3 rb ra).symm
  · intro env env' a b j j' hne h1 h2
    simp only [normalizeJob, Option.some.injEq] at h1 h2
    rw [← h1, ← h2]
    intro he
    have he2 : ("remoteok-" ++ a.id : String) = "remoteok-" ++ b.id := he
    exact hne (str_append_left_cancel he2)
  · intro env env' a b j j' hne h1 h2
    simp only [normalizeJob, Option.some.injEq] at h1 h2
    rw [← h1, ← h2]
    intro he
    have he2 : ("web3career-" ++ natDec a.id : String) = "web3career-" ++ natDec b.id := he
    exact hne (natDec_inj (str_append_left_cancel he2))
  · intro env env' a b da db j j' hda hdb hne h1 h2
    simp only [normalizeJob, hda, Option.some.injEq] at h1
    simp only [normalizeJob, hdb, Option.some.injEq] at h2
    rw [← h1, ← h2]
    intro he
    have he2 : ("weworkremotely-" ++ String.mk da : String)
        = "weworkremotely-" ++ String.mk db := he
    exact hne (congrArg String.data (str_append_left_cancel he2))

/-- Concrete normalized weworkremotely job used by witnesses. -/
def demoNormW : Job :=
  { id := "weworkremotely-101", title := "Dev @ Acme", company := "Acme", description := "d",
    url := "https://weworkremotely.com/remote-jobs/101-dev", postedAt := none,
    source := .weworkremotely }

/-- Witness for C5 amended: ids of concrete jobs from two different sources
differ. -/
theorem normalizeJob_id_uniqueness_witness :
    demoNormalized.id ≠ demoNormW.id :=
  (normalizeJob_id_uniqueness_policy).1 ⟨0, fun _ => none, ""⟩ ⟨0, fun _ => none, ""⟩
    (.remoteOK ⟨"1", "Dev", "Acme", "d", "u", 0⟩)
    (.wwr ⟨"Dev @ Acme", "https://weworkremotely.com/remote-jobs/101-dev", "d", "p"⟩)
    .remoteok .weworkremotely demoNormalized demoNormW (by decide) (by decide) (by decide)

/-- A successful parseAIResponse carries a score in [1, 10] and a non-empty
trimmed reason. -/
lemma parseAIResponse_ok_bounds {s : String} {sr : ScoreReason}
    (h : parseAIResponse s = .ok sr) :
    1 ≤ sr.score ∧ sr.score ≤ 10 ∧ sr.reason ≠ "" := by
  unfold parseAIResponse at h
  simp only [] at h
  cases hj : jsonParse (stripCodeFences s) with
  | none => rw [hj] at h; exact absurd h (by simp)
  | some parsed =>
    rw [hj] at h
    simp only [] at h
    cases hn : jsToNumber (parsed.getField "score") with
    | none => rw [hn] at h; exact absurd h (by simp)
    | some q =>
      rw [hn] at h
      simp only [] at h
      by_cases h1 : q < 1 ∨ q > 10
      · rw [if_pos h1] at h; exact absurd h (by simp)
      · rw [if_neg h1] at h
        by_cases h2 : jsOrEmptyStr (parsed.getField "reason") = ""
            ∨ jsTrim (jsOrEmptyStr (parsed.getField "reason")) = ""
        · rw [if_pos h2] at h; exact absurd h (by simp)
        · rw [if_neg h2] at h
          injection h with h3
          push_neg at h1 h2
          rw [← h3]
          exact ⟨h1.1, h1.2, h2.2⟩

/-- C9 counterexample: the scoring client accepts a non-integer score — on
oracle text carrying score 7.5, analyzeJob succeeds and the returned record's
score is 15/2, which is not an integer. -/
theorem analyzeJob_accepts_non_integer_score :
    analyzeJob (.ok "\x7b\"score\": 7.5, \"reason\": \"ok\"\x7d") demoJob
      = .ok ⟨demoJob, mkRat 15 2, "ok"⟩
    ∧ (mkRat 15 2).den ≠ 1 :=
  ⟨rfl, by decide⟩

/-- C9 amended: whenever analyzeJob succeeds, the returned record's Job fields
equal those of the input job unchanged, the score is a number in 1 to 10
inclusive (not necessarily an integer), and the reason is a non-empty string;
the record is never partially populated. -/
theorem analyzeJob_frame_and_validity
    (oracle : Except JsError String) (job : Job) (a : AnalyzedJob)
    (h : analyzeJob oracle job = .ok a) :
    a.toJob = job ∧ 1 ≤ a.score ∧ a.score ≤ 10 ∧ a.reason ≠ "" := by
  unfold analyzeJob at h
  cases oracle with
  | error e => exact absurd h (by simp)
  | ok content =>
    simp only [] at h
    by_cases hc : content = ""
    · rw [if_pos hc] at h; exact absurd h (by simp)
    · rw [if_neg hc] at h
      cases hp : parseAIResponse content with
      | error e => rw [hp] at h; exact absurd h (by simp)
      | ok sr =>
        rw [hp] at h
        simp only [] at h
        have hb := parseAIResponse_ok_bounds hp
        injection h with h2
        rw [← h2]
        exact ⟨rfl, hb.1, hb.2.1, hb.2.2⟩

/-- Concrete analyzed job used by witnesses. -/
def demoAnalyzed : AnalyzedJob := ⟨demoJob, 8, "good"⟩

/-- Witness for C9 amended: a concrete successful analysis preserves the job
and yields a valid score and reason. -/
theorem analyzeJob_frame_witness :
    demoAnalyzed.toJob = demoJob ∧ 1 ≤ demoAnalyzed.score ∧ demoAnalyzed.score ≤ 10
      ∧ demoAnalyzed.reason ≠ "" :=
  analyzeJob_frame_and_validity (.ok "\x7b\"score\": 8, \"reason\": \"good\"\x7d") demoJob
    demoAnalyzed rfl

/-- C1: parseAIResponse strips optional fenced code-block markers, then parses
the remainder as JSON; when the score field coerces to a number in 1 to 10
inclusive and the coerced reason is non-blank after trimming it returns that
score with the trimmed reason, and it throws on unparseable JSON, on a
non-numeric (NaN) or out-of-range score, and on a missing or blank reason
(a throw is a result whose toOption is none). -/
theorem parseAIResponse_spec (s : String) :
    (jsonParse (stripCodeFences s) = none → (parseAIResponse s).toOption = none)
    ∧ (∀ parsed : Json, jsonParse (stripCodeFences s) = some parsed →
        (∀ q : ℚ, jsToNumber (parsed.getField "score") = some q →
          1 ≤ q → q ≤ 10 →
          jsTrim (jsOrEmptyStr (parsed.getField "reason")) ≠ "" →
          parseAIResponse s = .ok ⟨q, jsTrim (jsOrEmptyStr (parsed.getField "reason"))⟩)
        ∧ (jsToNumber (parsed.getField "score") = none →
            (parseAIResponse s).toOption = none)
        ∧ (∀ q : ℚ, jsToNumber (parsed.getField "score") = some q → (q < 1 ∨ 10 < q) →
            (parseAIResponse s).toOption = none)
        ∧ (jsTrim (jsOrEmptyStr (parsed.getField "reason")) = "" →
            (parseAIResponse s).toOption = none)) := by
  constructor
  · intro hj
    unfold parseAIResponse
    simp only [hj]
    rfl
  · intro parsed hj
    refine ⟨?_, ?_, ?_, ?_⟩
    · intro q hn h1 h10 hr
      unfold parseAIResponse
      simp only [hj, hn]
      have hrange : ¬(q < 1 ∨ q > 10) := by
        push_neg
        exact ⟨h1, h10⟩
      rw [if_neg hrange]
      have hA : ¬(jsOrEmptyStr (parsed.getField "reason") = ""
          ∨ jsTrim (jsOrEmptyStr (parsed.getField "reason")) = "") := by
        rintro (hA | hB)
        · exact hr (by rw [hA]; rfl)
        · exact hr hB
      rw [if_neg hA]
    · intro hn
      unfold parseAIResponse
      simp only [hj, hn]
      rfl
    · intro q hn hout
      unfold parseAIResponse
      simp only [hj, hn]
      rw [if_pos hout]
      rfl
    · intro hblank
      unfold parseAIResponse
      simp only [hj]
      cases hsc : jsToNumber (parsed.getField "score") with
      | none => rfl
      | some q =>
        simp only [hsc]
        by_cases hr : q < 1 ∨ q > 10
        · rw [if_pos hr]
          rfl
        · rw [if_neg hr, if_pos (Or.inr hblank)]
          rfl

/-- Concrete JSON.parse result used by the C1 witness. -/
def demoParsed : Json := .obj (.cons "score" (.num 15) (.cons "reason" (.str "test") .nil))

/-- Witness for C1: the response with score 15 (out of range) throws. -/
theorem parseAIResponse_spec_witness :
    (parseAIResponse "\x7b\"score\": 15, \"reason\": \"test\"\x7d").toOption = none :=
  ((parseAIResponse_spec "\x7b\"score\": 15, \"reason\": \"test\"\x7d").2 demoParsed
    rfl).2.2.1 15 rfl (Or.inr (by norm_num))
